import Mathlib

/-!
# Pedigree Organizer backend — verification of the specification against the code

Shallow embedding of `src/main.py` and `src/schemas.py` of the "Pedigree
Organizer" backend (a FastAPI + MongoDB CRUD service for dog pedigree
records), together with theorems settling the specification's claims.

Modelling conventions:
* A MongoDB document of the `dog` collection is `Doc`; the store (`db["dog"]`)
  is a `List Doc` and `find_one({"_id": ObjectId(s)})` is `findOne`, the first
  document whose `_id` equals the given id string.
* `bson.ObjectId(s)` succeeds exactly when `s` is a 24-character hex string;
  `validObjectId` is that predicate.  A raised exception is modelled by the
  branch the surrounding `try/except` takes.
* The module-global `db` handle, which is `None` when `DATABASE_URL` is
  absent, is an `Option Store` argument to each handler.
* `HTTPException(status_code, detail)` and a successful JSON body are the two
  constructors of `ApiResult`.
* `database.py` is not part of the sources; `create_document` and
  `get_documents` are modelled from the specification (see their doc
  comments).  Everything else is translated from `src/main.py` /
  `src/schemas.py`.
-/

set_option autoImplicit false

/-- A stored document of the `dog` collection (fields of `schemas.Dog`
plus the Mongo `_id` key, its hex string form). -/
structure Doc where
  _id : String
  name : String
  op_id : Option Int := none
  sex : Option String := none
  color : Option String := none
  birth_date : Option String := none
  sire_id : Option String := none
  dam_id : Option String := none
  tags : List String := []
  source_url : Option String := none
  notes : Option String := none
deriving Repr, DecidableEq

/-- The `dog` collection held by the `db` handle. -/
abbrev Store := List Doc

/-- The public form of a document: `to_public` renames `_id` to `id`
(a string) and passes every other field through unchanged. -/
structure PublicDog where
  id : String
  name : String
  op_id : Option Int := none
  sex : Option String := none
  color : Option String := none
  birth_date : Option String := none
  sire_id : Option String := none
  dam_id : Option String := none
  tags : List String := []
  source_url : Option String := none
  notes : Option String := none
deriving Repr, DecidableEq

/-- `main.to_public`: rename the `_id` storage key to a string `id`;
all other fields pass through. -/
def to_public (d : Doc) : PublicDog :=
  { id := d._id, name := d.name, op_id := d.op_id, sex := d.sex,
    color := d.color, birth_date := d.birth_date, sire_id := d.sire_id,
    dam_id := d.dam_id, tags := d.tags, source_url := d.source_url,
    notes := d.notes }

/-- Hexadecimal digit, the characters `bson.ObjectId` accepts. -/
def isHexChar (c : Char) : Bool :=
  c.isDigit || ('a' ≤ c && c ≤ 'f') || ('A' ≤ c && c ≤ 'F')

/-- `bson.ObjectId(s)` succeeds (does not raise `InvalidId`) exactly when
`s` is a 24-character hexadecimal string. -/
def validObjectId (s : String) : Bool :=
  s.length == 24 && s.toList.all isHexChar

/-- `db["dog"].find_one({"_id": ObjectId(oid)})`: the first document whose
`_id` equals the requested id, if any. -/
def findOne (store : Store) (oid : String) : Option Doc :=
  store.find? (fun d => d._id == oid)

/-- Outcome of a request handler: a success value, or
`HTTPException(status_code=status, detail=detail)`. -/
inductive ApiResult (α : Type) where
  | ok (val : α)
  | err (status : Nat) (detail : String)
deriving Repr, DecidableEq

/-- `GET /dogs/{dog_id}` (`main.get_dog`): any exception while evaluating
`db["dog"].find_one({"_id": ObjectId(dog_id)})` — the handle being `None` or
the id failing `ObjectId` parsing — becomes a 400 "Invalid ID"; an absent
document becomes a 404; otherwise the public form is returned. -/
def get_dog (dbO : Option Store) (dog_id : String) : ApiResult PublicDog :=
  match dbO with
  | none => .err 400 "Invalid ID"
  | some store =>
    if validObjectId dog_id then
      match findOne store dog_id with
      | none => .err 404 "Dog not found"
      | some d => .ok (to_public d)
    else .err 400 "Invalid ID"

/-- A node of the tree produced by `get_pedigree`'s inner `fetch`:
`leaf` is the dict returned at `level >= depth` (the public fields only,
no `"sire"`/`"dam"` keys), `node` is the dict built below the bound, with
the two child keys each holding a subtree or `None`. -/
inductive PedTree where
  | leaf (fields : PublicDog)
  | node (fields : PublicDog) (sire : Option PedTree) (dam : Option PedTree)
deriving Repr

/-- One iteration of `fetch`'s loop body for a parent reference `r`
(`sire_id` or `dam_id`): a falsy reference (absent or empty) yields `None`;
a reference `ObjectId` rejects yields `None` via the `except` branch; a
well-formed reference that matches no document yields `None`; a resolved
document is expanded by the recursive call `fetchFn`. -/
def resolveRef (store : Store) (fetchFn : Doc → PedTree) (r : Option String) :
    Option PedTree :=
  match r with
  | none => none
  | some nid =>
    if nid.isEmpty then none
    else if validObjectId nid then
      match findOne store nid with
      | some target => some (fetchFn target)
      | none => none
    else none

/-- `get_pedigree`'s inner `fetch(node, level)`, phrased with the remaining
budget `fuel = depth - level`: at `level >= depth` (fuel `0`) the public
fields are returned as-is; below the bound the `sire_id` and `dam_id`
references are each resolved with one less unit of fuel. -/
def fetchAux (store : Store) : Nat → Doc → PedTree
  | 0, nd => .leaf (to_public nd)
  | fuel + 1, nd =>
    .node (to_public nd)
      (resolveRef store (fun d => fetchAux store fuel d) nd.sire_id)
      (resolveRef store (fun d => fetchAux store fuel d) nd.dam_id)

/-- `GET /pedigree/{dog_id}` (`main.get_pedigree`): root lookup errors as in
`get_dog`; a found root is expanded by `fetch(root, 0)` with the given
depth. -/
def get_pedigree (dbO : Option Store) (dog_id : String) (depth : Nat) :
    ApiResult PedTree :=
  match dbO with
  | none => .err 400 "Invalid ID"
  | some store =>
    if validObjectId dog_id then
      match findOne store dog_id with
      | none => .err 404 "Dog not found"
      | some root => .ok (fetchAux store depth root)
    else .err 400 "Invalid ID"

/-- `p` occurs as a contiguous run at the head of `l`. -/
def charsHasPre : List Char → List Char → Bool
  | [], _ => true
  | _ :: _, [] => false
  | a :: as, b :: bs => a == b && charsHasPre as bs

/-- `p` occurs as a contiguous run somewhere in `l` (substring containment
on character lists). -/
def charsHasSub (p : List Char) : List Char → Bool
  | [] => charsHasPre p []
  | c :: t => charsHasPre p (c :: t) || charsHasSub p t

/-- Case-insensitive substring containment of `pat` in `s` — the matching
relation MongoDB's `{"$regex": pat, "$options": "i"}` filter denotes for a
pattern with no regex metacharacters, which is how the specification
describes the store's name search. -/
def containsCI (pat s : String) : Bool :=
  charsHasSub (pat.toList.map Char.toLower) (s.toList.map Char.toLower)

/-- Modelled from the spec: `database.get_documents` (database.py is not in
src/).  §4.1: "case-insensitive substring match against `name` when a
pattern is given; returns at most `limit` records (default 50) in
store-defined order; returns all records (bounded by limit) when no pattern
given." -/
def get_documents (store : Store) (namePat : Option String) (limit : Nat) :
    List Doc :=
  (match namePat with
   | none => store
   | some pat => store.filter (fun d => containsCI pat d.name)).take limit

/-- `GET /dogs` (`main.list_dogs`): a truthy `q` becomes the
case-insensitive name filter (a falsy `q` — absent or empty — means no
filter); the matching documents, at most `limit`, are returned in public
form. -/
def list_dogs (store : Store) (q : Option String) (limit : Nat) :
    List PublicDog :=
  let filt : Option String :=
    match q with
    | none => none
    | some s => if s.isEmpty then none else some s
  (get_documents store filt limit).map to_public

/-- The raw JSON body of `POST /dogs` as far as validation of `name` is
concerned: `none` is an absent `name` field.  The other fields of
`main.DogCreate` are optional with `None`/`[]` defaults and cannot fail. -/
structure DogCreateBody where
  name : Option String := none
  op_id : Option Int := none
  sex : Option String := none
  color : Option String := none
  birth_date : Option String := none
  sire_id : Option String := none
  dam_id : Option String := none
  tags : List String := []
  source_url : Option String := none
  notes : Option String := none
deriving Repr, DecidableEq

/-- The 24-hex-digit string form of a fresh ObjectId, an injection of a
counter into valid id strings (for the modelled `create_document`). -/
def freshOid (n : Nat) : String :=
  String.mk ((Nat.toDigits 16 n).leftpad 24 '0')

/-- Modelled from the spec: `database.create_document` (database.py is not
in src/).  §4.1: "assigns a new unique `id`; persists; returns the id" —
the document is stored under a fresh id derived from the collection size
and that id is returned. -/
def create_document (store : Store) (d : Doc) : String × Store :=
  let newId := freshOid store.length
  (newId, store ++ [{ d with _id := newId }])

/-- `POST /dogs` (`main.create_dog`): pydantic validation of
`DogCreate`/`Dog` requires `name` to be present (any string, there is no
emptiness constraint); a validation failure is FastAPI's 422 and nothing is
stored; otherwise the document is persisted and `{"id": new_id}` returned.
The result is paired with the store after the request. -/
def create_dog (store : Store) (body : DogCreateBody) :
    ApiResult String × Store :=
  match body.name with
  | none => (.err 422 "Field required: name", store)
  | some n =>
    let d : Doc :=
      { _id := "", name := n, op_id := body.op_id, sex := body.sex,
        color := body.color, birth_date := body.birth_date,
        sire_id := body.sire_id, dam_id := body.dam_id, tags := body.tags,
        source_url := body.source_url, notes := body.notes }
    let res := create_document store d
    (.ok res.1, res.2)

/-- The characters before the first occurrence of `sep` (the whole list
when `sep` never occurs). -/
def takeUntilSep (sep : List Char) : List Char → List Char
  | [] => []
  | c :: t => if charsHasPre sep (c :: t) then [] else c :: takeUntilSep sep t

/-- Python's `s.split(sep)[0]`: the text of `s` before the first
occurrence of `sep` (all of `s` when `sep` does not occur). -/
def firstSplitPiece (sep s : String) : String :=
  String.mk (takeUntilSep sep.toList s.toList)

/-- Drop whitespace from both ends of a character list. -/
def stripChars (l : List Char) : List Char :=
  ((l.dropWhile Char.isWhitespace).reverse.dropWhile Char.isWhitespace).reverse

/-- Python's `s.strip()`: `s` without leading and trailing whitespace. -/
def pyStrip (s : String) : String :=
  String.mk (stripChars s.toList)

/-- The name `import_from_op` derives from the fetched page: the part of
the `<title>` before the first `"- "` separator, stripped of surrounding
whitespace (`title.split("- ")[0].strip()`); a falsy result — absent
title, or an empty string after the split and strip — falls back to
`"Imported Dog"`.  (A bs4 parse exception leaves the title `none` and is
swallowed, taking the same fallback.) -/
def importName (title : Option String) : String :=
  match title with
  | none => "Imported Dog"
  | some t =>
    let n := pyStrip (firstSplitPiece "- " t)
    if n.isEmpty then "Imported Dog" else n

/-- The outbound HTTP request the import endpoint issues:
`requests.get(url, timeout=10)`. -/
structure FetchReq where
  url : String
  timeout : Nat
deriving Repr, DecidableEq

/-- The request `import_from_op` builds for a given `url`. -/
def importRequest (url : String) : FetchReq :=
  { url := url, timeout := 10 }

/-- What reaches the handler from `requests.get`: an exception message, or
the page's `<title>` text (if the page has one). -/
abbrev FetchOutcome := Except String (Option String)

/-- `POST /import` (`main.import_from_op`), given the outcome of the
outbound fetch: a fetch failure raises a 400 whose detail interpolates the
exception, and nothing is stored; a fetched page always yields a created
document whose name comes from `importName`, whose `source_url` is the
requested url, and whose notes are the fixed metadata-only marker. -/
def import_from_op (store : Store) (url : String) (fetched : FetchOutcome) :
    ApiResult (String × String) × Store :=
  match fetched with
  | .error e => (.err 400 ("Failed to fetch: " ++ e), store)
  | .ok title =>
    let nm := importName title
    let d : Doc :=
      { _id := "", name := nm, source_url := some url,
        notes := some "Imported from APBT Online Pedigrees (metadata only)" }
    let res := create_document store d
    (.ok (res.1, nm), res.2)

/-! ## Measures on pedigree trees -/

/-- Number of nested non-null `"sire"` levels below (and not counting) the
root of a pedigree tree. -/
def sireChainLen : PedTree → Nat
  | .leaf _ => 0
  | .node _ none _ => 0
  | .node _ (some t) _ => sireChainLen t + 1

/-- Height of a pedigree tree (a single node has height 1). -/
def treeHeight : PedTree → Nat
  | .leaf _ => 1
  | .node _ none none => 1
  | .node _ (some s) none => 1 + treeHeight s
  | .node _ none (some m) => 1 + treeHeight m
  | .node _ (some s) (some m) => 1 + max (treeHeight s) (treeHeight m)

/-- Whether the root dict of a tree carries the `"sire"`/`"dam"` child
keys (`fetch` adds them only below the depth bound). -/
def hasChildKeys : PedTree → Bool
  | .leaf _ => false
  | .node _ _ _ => true

/-- The `"sire"` child of the root dict, when the key is present and
non-null. -/
def sireOf : PedTree → Option PedTree
  | .leaf _ => none
  | .node _ s _ => s

/-- The shape `fetch` guarantees for a tree built with `fuel` remaining
levels: with fuel `0` the dict has no child keys; otherwise it has both
child keys, each absent or a tree of the shape one fuel lower. -/
def shapeOk : Nat → PedTree → Bool
  | 0, t =>
    match t with
    | .leaf _ => true
    | .node _ _ _ => false
  | fuel + 1, t =>
    match t with
    | .leaf _ => false
    | .node _ s m =>
      (match s with
       | none => true
       | some ts => shapeOk fuel ts) &&
      (match m with
       | none => true
       | some tm => shapeOk fuel tm)

/-- `shapeOk` lifted to an optional child. -/
def shapeOkO (fuel : Nat) : Option PedTree → Bool
  | none => true
  | some t => shapeOk fuel t

/-- The `"dam"` child of the root dict, when the key is present. -/
def damOf : PedTree → Option PedTree
  | .leaf _ => none
  | .node _ _ m => m

/-- Height of an optional subtree (`none` counts 0). -/
def optHeight : Option PedTree → Nat
  | none => 0
  | some t => treeHeight t

/-! ## Concrete stores and inputs used by witnesses and counterexamples -/

/-- A chain dog: dog `0` has no parents; dog `k+1` has `sire_id = ids k`
and no other parent reference. -/
def chainDog (ids : Nat → String) : Nat → Doc
  | 0 => { _id := ids 0, name := "dog" }
  | k + 1 => { _id := ids (k + 1), name := "dog", sire_id := some (ids k) }

/-- The store holding the chain dogs `0, …, N`. -/
def chainStore (ids : Nat → String) (N : Nat) : Store :=
  (List.range (N + 1)).map (chainDog ids)

/-- Three concrete 24-hex-digit ids. -/
def oidA : String := "aaaaaaaaaaaaaaaaaaaaaaaa"

def oidB : String := "bbbbbbbbbbbbbbbbbbbbbbbb"

def oidC : String := "cccccccccccccccccccccccc"

/-- Concrete id assignment for a 3-dog chain. -/
def c1Ids : Nat → String :=
  fun k => [oidA, oidB, oidC].getD k ""

/-- A dog that lists itself as its own sire — a one-node ancestry cycle. -/
def selfLoopDoc : Doc :=
  { _id := "abcdefabcdefabcdefabcdef", name := "ouro",
    sire_id := some "abcdefabcdefabcdefabcdef" }

/-- Store containing only the self-cyclic dog. -/
def selfLoopStore : Store := [selfLoopDoc]

/-- A sire and a pup referencing it, for exercising the depth boundary. -/
def c4Sire : Doc := { _id := oidA, name := "sire" }

/-- The pup whose pedigree is resolved at depth 1. -/
def c4Pup : Doc := { _id := oidB, name := "pup", sire_id := some oidA }

/-- Store with the pup and its sire. -/
def c4Store : Store := [c4Sire, c4Pup]

/-- Whether the dict at the deepest expanded level (the sire of the root,
at level 1 = depth) of `get_pedigree(c4Pup, depth=1)` carries the
`"sire"`/`"dam"` child keys. -/
def c4DeepestKeys : Option Bool :=
  match get_pedigree (some c4Store) oidB 1 with
  | .ok t => Option.map hasChildKeys (sireOf t)
  | .err _ _ => none

/-- Two dogs whose names contain "rex" case-insensitively and one that
does not. -/
def c6Rexy : Doc := { _id := oidA, name := "REXY" }

/-- A dog matching "Rex" in the middle of the name. -/
def c6TRex : Doc := { _id := oidB, name := "T-Rex Junior" }

/-- A dog not matching "Rex". -/
def c6Fido : Doc := { _id := oidC, name := "Fido" }

/-- Store for the search witness. -/
def c6Store : Store := [c6Rexy, c6TRex, c6Fido]

/-- A 100-character exception message, long enough that any truncation to a
fixed small bound (such as the 80 characters used by the `/test`
diagnostic) would cut it. -/
def longCause : String := String.mk (List.replicate 100 'x')

/-- A page title that starts with the `"- "` separator, so the text before
the first separator is empty. -/
def c8Title : String := "- Rex Kennel"

/-! ## Helper lemmas -/

theorem validObjectId_length {s : String} (h : validObjectId s = true) :
    s.length = 24 := by
  have := (Bool.and_eq_true _ _).mp h
  simpa using this.1

theorem validObjectId_isEmpty_false {s : String} (h : validObjectId s = true) :
    s.isEmpty = false := by
  cases he : s.isEmpty with
  | false => rfl
  | true =>
    have hs : s = "" := (String.isEmpty_iff s).mp he
    have := validObjectId_length h
    rw [hs] at this
    simp at this

theorem resolveRef_none (store : Store) (f : Doc → PedTree) :
    resolveRef store f none = none := rfl

theorem resolveRef_invalid (store : Store) (f : Doc → PedTree) {nid : String}
    (h : validObjectId nid = false) : resolveRef store f (some nid) = none := by
  simp only [resolveRef, h]
  split_ifs <;> first | rfl | simp_all

theorem resolveRef_not_found (store : Store) (f : Doc → PedTree) {nid : String}
    (h : findOne store nid = none) : resolveRef store f (some nid) = none := by
  simp only [resolveRef, h]
  split_ifs <;> rfl

theorem resolveRef_found (store : Store) (f : Doc → PedTree) {nid : String}
    {d : Doc} (hv : validObjectId nid = true) (h : findOne store nid = some d) :
    resolveRef store f (some nid) = some (f d) := by
  simp only [resolveRef, h, hv, validObjectId_isEmpty_false hv]
  rfl

/-! ## Claim theorems -/

/-- **C3.** During pedigree resolution, below the depth bound, a parent
reference that is absent (or falsy), malformed for `ObjectId`, or matching
no record uniformly resolves to `null` for that branch — the handler's
`try/except` turns every lookup failure into `None` rather than an error —
and the `"dam"` branch of a node does not depend on what its `sire_id` was
or how the sire branch fared. -/
theorem c3_unresolvable_refs_yield_null (store : Store) (fuel : Nat)
    (badId absentId : String) (d : Doc)
    (hbad : validObjectId badId = false)
    (habs : findOne store absentId = none) :
    resolveRef store (fetchAux store fuel) none = none ∧
    resolveRef store (fetchAux store fuel) (some "") = none ∧
    resolveRef store (fetchAux store fuel) (some badId) = none ∧
    resolveRef store (fetchAux store fuel) (some absentId) = none ∧
    (∀ s1 s2 : Option String,
      damOf (fetchAux store (fuel + 1) { d with sire_id := s1 }) =
      damOf (fetchAux store (fuel + 1) { d with sire_id := s2 })) := by
  refine ⟨rfl, rfl, resolveRef_invalid _ _ hbad, resolveRef_not_found _ _ habs, ?_⟩
  intro s1 s2
  simp [fetchAux, damOf]

/-- Witness for C3 at a concrete store: the empty store, the malformed id
`"zzz"`, and a well-formed id matching no record. -/
theorem c3_witness :
    resolveRef [] (fetchAux [] 2) (some "zzz") = none ∧
    resolveRef [] (fetchAux [] 2) (some oidA) = none :=
  ⟨(c3_unresolvable_refs_yield_null [] 2 "zzz" oidA { _id := oidB, name := "d" }
      (by decide) (by decide)).2.2.1,
   (c3_unresolvable_refs_yield_null [] 2 "zzz" oidA { _id := oidB, name := "d" }
      (by decide) (by decide)).2.2.2.1⟩

/-- **C5.** `GET /dogs/{id}` distinguishes a syntactically invalid id —
`ObjectId` raises, the handler answers 400 "Invalid ID" — from a
well-formed id that matches no record, which answers 404 "Dog not found"
and not the invalid-id error. -/
theorem c5_get_dog_invalid_vs_absent (store : Store) (badId absentId : String)
    (hbad : validObjectId badId = false)
    (hval : validObjectId absentId = true)
    (habs : findOne store absentId = none) :
    get_dog (some store) badId = .err 400 "Invalid ID" ∧
    get_dog (some store) absentId = .err 404 "Dog not found" := by
  constructor
  · simp [get_dog, hbad]
  · simp [get_dog, hval, habs]

/-- Witness for C5: the malformed id `"zzz"` vs a well-formed 24-hex id on
the empty store. -/
theorem c5_witness :
    get_dog (some []) "zzz" = .err 400 "Invalid ID" ∧
    get_dog (some []) oidA = .err 404 "Dog not found" :=
  c5_get_dog_invalid_vs_absent [] "zzz" oidA (by decide) (by decide) (by decide)

/-- **C9 counterexample.** The import handler's fetch-failure detail is
`f"Failed to fetch: {e}"` with the exception message interpolated whole:
for a 100-character cause the full 117-character detail is produced, so no
truncation (such as the 80-character cut used by `/test`) is applied —
refuting "includes a truncated cause message". -/
theorem c9_counterexample :
    (import_from_op [] "http://example.com/dog" (.error longCause)).1 =
      .err 400 ("Failed to fetch: " ++ longCause) ∧
    longCause.length = 100 ∧
    ("Failed to fetch: " ++ longCause).length = 117 := by
  refine ⟨rfl, ?_, ?_⟩ <;> decide

/-- **C9 (amended).** The import's outbound request carries a bounded
timeout of 10 time units; every fetch failure surfaces as a 400 client
error whose detail is `"Failed to fetch: "` followed by the full,
untruncated cause message; and no record is created on failure (the store
is returned unchanged). -/
theorem c9_amended_fetch_failure (store : Store) (url e : String) :
    (importRequest url).timeout = 10 ∧
    import_from_op store url (.error e) =
      (.err 400 ("Failed to fetch: " ++ e), store) :=
  ⟨rfl, rfl⟩

/-- **C10.** On `GET /dogs/{id}` and `GET /pedigree/{id}` the bare
`except Exception` around the root lookup maps any failure — the `db`
handle being `None` (store unavailable) just as much as a malformed id —
to the 400 "Invalid ID" response, so a 400 on these endpoints does not
imply the id was malformed: even a syntactically valid id yields 400 when
the store is down. -/
theorem c10_invalid_id_covers_store_down (dog_id : String) (depth : Nat)
    (store : Store) (hbad : validObjectId dog_id = false) :
    (∀ anyId : String, get_dog none anyId = .err 400 "Invalid ID") ∧
    (∀ anyId : String, get_pedigree none anyId depth = .err 400 "Invalid ID") ∧
    get_dog (some store) dog_id = .err 400 "Invalid ID" ∧
    get_pedigree (some store) dog_id depth = .err 400 "Invalid ID" := by
  refine ⟨fun _ => rfl, fun _ => rfl, ?_, ?_⟩
  · simp [get_dog, hbad]
  · simp [get_pedigree, hbad]

/-- Witness for C10: with the store down, the syntactically valid id
`oidA` still gets 400 "Invalid ID" (not a malformed-id situation), and a
malformed id gets the same 400 on a live store. -/
theorem c10_witness :
    get_dog none oidA = .err 400 "Invalid ID" ∧
    get_dog (some []) "zzz" = .err 400 "Invalid ID" :=
  ⟨(c10_invalid_id_covers_store_down "zzz" 3 [] (by decide)).1 oidA,
   (c10_invalid_id_covers_store_down "zzz" 3 [] (by decide)).2.2.1⟩

theorem treeHeight_node (fields : PublicDog) (s m : Option PedTree) :
    treeHeight (.node fields s m) = 1 + max (optHeight s) (optHeight m) := by
  cases s <;> cases m <;> simp [treeHeight, optHeight]

theorem optHeight_resolveRef_le (store : Store) (f : Doc → PedTree) (B : Nat)
    (hf : ∀ d, treeHeight (f d) ≤ B) (r : Option String) :
    optHeight (resolveRef store f r) ≤ B := by
  cases r with
  | none => simp [resolveRef, optHeight]
  | some nid =>
    simp only [resolveRef]
    split_ifs
    · simp [optHeight]
    · cases hfo : findOne store nid with
      | none => simp [optHeight]
      | some t =>
        simp only [optHeight]
        exact hf t
    · simp [optHeight]

theorem fetchAux_height_le (store : Store) :
    ∀ (fuel : Nat) (d : Doc), treeHeight (fetchAux store fuel d) ≤ fuel + 1 := by
  intro fuel
  induction fuel with
  | zero => intro d; simp [fetchAux, treeHeight]
  | succ n ih =>
    intro d
    simp only [fetchAux, treeHeight_node]
    have hs := optHeight_resolveRef_le store (fun d => fetchAux store n d) (n + 1)
      ih d.sire_id
    have hm := optHeight_resolveRef_le store (fun d => fetchAux store n d) (n + 1)
      ih d.dam_id
    omega

theorem selfLoop_chainLen (depth : Nat) :
    sireChainLen (fetchAux selfLoopStore depth selfLoopDoc) = depth := by
  induction depth with
  | zero => rfl
  | succ n ih =>
    have hfind : findOne selfLoopStore "abcdefabcdefabcdefabcdef" =
        some selfLoopDoc := rfl
    have hv : validObjectId "abcdefabcdefabcdefabcdef" = true := by decide
    simp only [fetchAux]
    rw [show selfLoopDoc.sire_id = some "abcdefabcdefabcdefabcdef" from rfl,
        resolveRef_found _ _ hv hfind]
    simp [sireChainLen, ih]

/-- **C2.** The pedigree resolver terminates with a result bounded by the
depth argument for every store and root — the level counter rises by 1 per
recursive call and recursion stops at `level >= depth`, with no visited
set — so even a cyclic ancestry graph is harmless: the tree built with
`fuel` remaining levels has height at most `fuel + 1` over any store
whatsoever, and on the store whose one dog is its own sire the resolver
still returns, with exactly `depth` sire levels. -/
theorem c2_depth_bounds_recursion :
    (∀ (store : Store) (fuel : Nat) (d : Doc),
      treeHeight (fetchAux store fuel d) ≤ fuel + 1) ∧
    (∀ depth : Nat, ∃ t,
      get_pedigree (some selfLoopStore) selfLoopDoc._id depth = .ok t ∧
      sireChainLen t = depth) := by
  refine ⟨fun store fuel d => fetchAux_height_le store fuel d, fun depth => ?_⟩
  exact ⟨fetchAux selfLoopStore depth selfLoopDoc, rfl, selfLoop_chainLen depth⟩

theorem shapeOk_node (fuel : Nat) (fields : PublicDog) (s m : Option PedTree) :
    shapeOk (fuel + 1) (.node fields s m) = (shapeOkO fuel s && shapeOkO fuel m) := by
  cases s <;> cases m <;> rfl

theorem shapeOkO_resolveRef (store : Store) (f : Doc → PedTree) (fuel : Nat)
    (hf : ∀ d, shapeOk fuel (f d) = true) (r : Option String) :
    shapeOkO fuel (resolveRef store f r) = true := by
  cases r with
  | none => rfl
  | some nid =>
    simp only [resolveRef]
    split_ifs
    · rfl
    · cases hfo : findOne store nid with
      | none => rfl
      | some t =>
        simp only [shapeOkO]
        exact hf t
    · rfl

theorem shapeOk_fetchAux (store : Store) :
    ∀ (fuel : Nat) (d : Doc), shapeOk fuel (fetchAux store fuel d) = true := by
  intro fuel
  induction fuel with
  | zero => intro d; rfl
  | succ n ih =>
    intro d
    rw [fetchAux, shapeOk_node,
      shapeOkO_resolveRef store _ n ih d.sire_id,
      shapeOkO_resolveRef store _ n ih d.dam_id]
    rfl

/-- **C4 counterexample.** Resolving `c4Pup` (whose sire is `c4Sire`) at
depth 1 places the sire at the deepest expanded level, `level == depth`;
there `fetch` returns `to_public(node)` without ever setting the
`"sire"`/`"dam"` keys, so that node does not carry the two child keys —
refuting "every node … including nodes at the deepest expanded level …
plus two child keys". -/
theorem c4_counterexample : c4DeepestKeys = some false := rfl

/-- **C4 (amended).** Every node of the tree returned by the pedigree
resolve operation that lies strictly below the depth bound consists of the
dog's public fields plus the two child keys `"sire"`/`"dam"`, each a
nested tree or null; a node emitted at level equal to the depth bound
consists of the public fields only, without the child keys. -/
theorem c4_amended_node_shape (store : Store) (dog_id : String) (depth : Nat)
    (t : PedTree) (h : get_pedigree (some store) dog_id depth = .ok t) :
    shapeOk depth t = true := by
  simp only [get_pedigree] at h
  by_cases hv : validObjectId dog_id = true
  · rw [if_pos hv] at h
    cases hfo : findOne store dog_id with
    | none => rw [hfo] at h; cases h
    | some root =>
      rw [hfo] at h
      cases h
      exact shapeOk_fetchAux store depth root
  · rw [if_neg hv] at h
    cases h

/-- Witness for C4 (amended): the depth-1 tree over `c4Store` has the
required shape. -/
theorem c4_amended_witness :
    shapeOk 1 (PedTree.node (to_public c4Pup)
      (some (.leaf (to_public c4Sire))) none) = true :=
  c4_amended_node_shape c4Store oidB 1 _ rfl

/-- **C7 counterexample.** `DogCreate`/`Dog` declare `name : str` with no
emptiness constraint, so a create request whose `name` is the empty string
— "not non-empty text" — passes validation: the handler returns the new id
and a record is persisted, refuting "fails with a validation error and no
record is created". -/
theorem c7_counterexample :
    ("" : String).isEmpty = true ∧
    (create_dog [] { name := some "" }).1 = .ok (freshOid 0) ∧
    (create_dog [] { name := some "" }).2.length = 1 :=
  ⟨rfl, rfl, rfl⟩

/-- **C7 (amended).** A create request with the `name` field missing fails
with a 422 validation error and no record is created; a create request
whose `name` is any string — including the empty string — is accepted: the
new id is returned and exactly one record with that name is appended. -/
theorem c7_amended_name_required (store : Store) (body : DogCreateBody) :
    (body.name = none →
      create_dog store body = (.err 422 "Field required: name", store)) ∧
    (∀ n, body.name = some n →
      (create_dog store body).1 = .ok (freshOid store.length) ∧
      ∃ d, (create_dog store body).2 = store ++ [d] ∧ d.name = n) := by
  constructor
  · intro h
    simp [create_dog, h]
  · intro n h
    refine ⟨by simp [create_dog, h, create_document], ?_⟩
    refine ⟨Doc.mk (freshOid store.length) n body.op_id body.sex body.color
      body.birth_date body.sire_id body.dam_id body.tags body.source_url
      body.notes, ?_, rfl⟩
    simp [create_dog, h, create_document]

/-- Witness for C7 (amended): a body without `name` is rejected on the
empty store; a body with `name = "Rex"` is accepted. -/
theorem c7_witness :
    create_dog [] {} = (.err 422 "Field required: name", ([] : Store)) ∧
    (create_dog [] { name := some "Rex" }).1 = .ok (freshOid 0) :=
  ⟨(c7_amended_name_required [] {}).1 rfl,
   ((c7_amended_name_required [] { name := some "Rex" }).2 "Rex" rfl).1⟩

/-- **C8 counterexample.** For the fetched title `"- Rex Kennel"` the text
before the first `"- "` separator is the empty string, the title is
present and parsing succeeds, yet the stored name is the placeholder
`"Imported Dog"` — refuting "the stored record's name is the text of the
page title before the first `- ` separator" with fallback only on absent
title or parse failure. -/
theorem c8_counterexample :
    firstSplitPiece "- " c8Title = "" ∧
    (import_from_op [] "http://x" (.ok (some c8Title))).1 =
      .ok (freshOid 0, "Imported Dog") ∧
    ("Imported Dog" : String) ≠ "" :=
  ⟨by decide, by decide, by decide⟩

/-- **C8 (amended).** For every import whose page fetch succeeds, a record
is stored whose `source_url` is the requested URL and whose `notes` is the
fixed metadata-only marker; its name is the whitespace-stripped text of
the page title before the first `"- "` separator when that text is
non-empty, and otherwise — absent title, parse failure, or empty stripped
text — silently falls back to `"Imported Dog"`; no parse error is ever
surfaced (the handler answers `ok` for every fetched page). -/
theorem c8_amended_import_ok (store : Store) (url : String)
    (title : Option String) :
    (∃ d, import_from_op store url (.ok title) =
        (.ok (freshOid store.length, importName title), store ++ [d]) ∧
      d.name = importName title ∧ d.source_url = some url ∧
      d.notes = some "Imported from APBT Online Pedigrees (metadata only)") ∧
    (title = none → importName title = "Imported Dog") ∧
    (∀ t, title = some t → (pyStrip (firstSplitPiece "- " t)).isEmpty = true →
      importName title = "Imported Dog") ∧
    (∀ t, title = some t → (pyStrip (firstSplitPiece "- " t)).isEmpty = false →
      importName title = pyStrip (firstSplitPiece "- " t)) := by
  refine ⟨⟨_, rfl, rfl, rfl, rfl⟩, ?_, ?_, ?_⟩
  · intro h
    rw [h]
    rfl
  · intro t ht he
    rw [ht]
    simp only [importName]
    rw [he]
    rfl
  · intro t ht he
    rw [ht]
    simp only [importName]
    rw [he]
    rfl

/-- Witness for C8 (amended): the title `"Rex - APBT Online Pedigrees"`
stores the stripped pre-separator text `"Rex"`. -/
theorem c8_witness :
    importName (some "Rex - APBT Online Pedigrees") =
      pyStrip (firstSplitPiece "- " "Rex - APBT Online Pedigrees") :=
  (c8_amended_import_ok [] "http://x" (some "Rex - APBT Online Pedigrees")).2.2.2
    "Rex - APBT Online Pedigrees" rfl (by decide)

theorem list_dogs_eq_filter_take (store : Store) (q : String) (limit : Nat)
    (hq : q.isEmpty = false) :
    list_dogs store (some q) limit =
      ((store.filter (fun d => containsCI q d.name)).take limit).map to_public := by
  simp [list_dogs, hq, get_documents]

/-- **C6.** Searching with a (truthy) name pattern matches records by
case-insensitive substring containment of the pattern in the record's
name — every returned record's name contains the pattern
case-insensitively, every matching stored record is returned when the
match count fits the limit — and never returns more than `limit`
records. -/
theorem c6_search_ci_substring_limit (store : Store) (q : String) (limit : Nat)
    (hq : q.isEmpty = false) :
    (∀ p ∈ list_dogs store (some q) limit,
      ∃ d, d ∈ store ∧ p = to_public d ∧ containsCI q d.name = true) ∧
    (list_dogs store (some q) limit).length ≤ limit ∧
    ((store.filter (fun d => containsCI q d.name)).length ≤ limit →
      ∀ d ∈ store, containsCI q d.name = true →
        to_public d ∈ list_dogs store (some q) limit) := by
  rw [list_dogs_eq_filter_take store q limit hq]
  refine ⟨?_, ?_, ?_⟩
  · intro p hp
    rcases List.mem_map.mp hp with ⟨d, hd, rfl⟩
    have hd' : d ∈ store.filter (fun d => containsCI q d.name) :=
      (List.take_sublist _ _).subset hd
    rcases List.mem_filter.mp hd' with ⟨hmem, hmatch⟩
    exact ⟨d, hmem, rfl, hmatch⟩
  · rw [List.length_map, List.length_take]
    exact min_le_left _ _
  · intro hlen d hd hm
    rw [List.take_of_length_le hlen]
    exact List.mem_map_of_mem _ (List.mem_filter.mpr ⟨hd, hm⟩)

/-- Witness for C6: searching "Rex" over `c6Store` (names "REXY",
"T-Rex Junior", "Fido") stays within the default limit 50 and returns the
record whose name contains "rex" case-insensitively. -/
theorem c6_witness :
    (list_dogs c6Store (some "Rex") 50).length ≤ 50 ∧
    to_public c6TRex ∈ list_dogs c6Store (some "Rex") 50 :=
  ⟨(c6_search_ci_substring_limit c6Store "Rex" 50 (by decide)).2.1,
   (c6_search_ci_substring_limit c6Store "Rex" 50 (by decide)).2.2 (by decide)
     c6TRex (by decide) (by decide)⟩

theorem chainDog_id (ids : Nat → String) (k : Nat) :
    (chainDog ids k)._id = ids k := by
  cases k <;> rfl

theorem find?_unique {α : Type} (p : α → Bool) (l : List α) (a : α)
    (ha : a ∈ l) (hpa : p a = true) (huniq : ∀ b ∈ l, p b = true → b = a) :
    l.find? p = some a := by
  induction l with
  | nil => cases ha
  | cons x xs ih =>
    by_cases hx : p x = true
    · have hxa : x = a := huniq x (List.mem_cons_self x xs) hx
      rw [List.find?_cons_of_pos xs hx, hxa]
    · rw [List.find?_cons_of_neg xs hx]
      have ha' : a ∈ xs := by
        rcases List.mem_cons.mp ha with h | h
        · exact absurd (h ▸ hpa) hx
        · exact h
      exact ih ha' (fun b hb hpb => huniq b (List.mem_cons_of_mem x hb) hpb)

theorem findOne_chainStore (ids : Nat → String) (N : Nat)
    (hinj : ∀ j, j ≤ N → ∀ k, k ≤ N → ids j = ids k → j = k)
    (k : Nat) (hk : k ≤ N) :
    findOne (chainStore ids N) (ids k) = some (chainDog ids k) := by
  simp only [findOne, chainStore]
  apply find?_unique
  · exact List.mem_map_of_mem _ (List.mem_range.mpr (Nat.lt_succ_of_le hk))
  · simp [chainDog_id]
  · intro b hb hpb
    rcases List.mem_map.mp hb with ⟨j, hj, rfl⟩
    have hjN : j ≤ N := Nat.lt_succ_iff.mp (List.mem_range.mp hj)
    have hjk : ids j = ids k := by simpa [chainDog_id] using hpb
    rw [hinj j hjN k hk hjk]

theorem fetchAux_chain_len (ids : Nat → String) (N : Nat)
    (hinj : ∀ j, j ≤ N → ∀ k, k ≤ N → ids j = ids k → j = k)
    (hval : ∀ k, k ≤ N → validObjectId (ids k) = true) :
    ∀ (fuel k : Nat), k ≤ N →
      sireChainLen (fetchAux (chainStore ids N) fuel (chainDog ids k)) =
        min fuel k := by
  intro fuel
  induction fuel with
  | zero =>
    intro k hk
    simp [fetchAux, sireChainLen]
  | succ n ih =>
    intro k hk
    cases k with
    | zero =>
      simp [fetchAux, chainDog, resolveRef, sireChainLen]
    | succ m =>
      have hm : m ≤ N := le_trans (Nat.le_succ m) hk
      have hfind := findOne_chainStore ids N hinj m hm
      have hv := hval m hm
      have hs : (chainDog ids (m + 1)).sire_id = some (ids m) := rfl
      simp only [fetchAux, hs]
      rw [resolveRef_found _ _ hv hfind]
      simp [sireChainLen, ih m hm, Nat.succ_min_succ]

/-- **C1.** For a chain of dogs `0, …, N` where dog `k`'s only parent
reference is `sire_id = ids (k-1)`, resolving the pedigree of dog `N` with
depth `D` succeeds and the resulting tree's chain of nested non-null
`"sire"` nodes has exactly `min D N` levels (the chain ends there — a
`sire` key holding null when the ancestors run out first, or a keyless
depth-bound node when the depth runs out first). -/
theorem c1_sire_chain_min_depth (ids : Nat → String) (N D : Nat)
    (hinj : ∀ j, j ≤ N → ∀ k, k ≤ N → ids j = ids k → j = k)
    (hval : ∀ k, k ≤ N → validObjectId (ids k) = true) :
    ∃ t, get_pedigree (some (chainStore ids N)) (ids N) D = .ok t ∧
      sireChainLen t = min D N := by
  have hfind := findOne_chainStore ids N hinj N (le_refl N)
  refine ⟨fetchAux (chainStore ids N) D (chainDog ids N), ?_,
    fetchAux_chain_len ids N hinj hval D N (le_refl N)⟩
  simp [get_pedigree, hval N (le_refl N), hfind]

/-- Witness for C1: the 3-dog chain `c1Ids` (N = 2) resolved at depth 1
has a sire-chain of `min 1 2 = 1` non-null levels. -/
theorem c1_witness :
    ∃ t, get_pedigree (some (chainStore c1Ids 2)) (c1Ids 2) 1 = .ok t ∧
      sireChainLen t = min 1 2 :=
  c1_sire_chain_min_depth c1Ids 2 1 (by decide) (by decide)
